import Mathlib

/-!
Shallow embedding of the schedbench nomad benchmark driver
(`bench/nomad/main.go`): the allocation watch loop of `handleStatus`, the
job fan-out loop of `handleRun`, the teardown loop of `handleTeardown`,
and the gob round-trip transcoder `convertStructJob`.

Modelling conventions:
- Go `int64` values (the aggregate counters) become `Int`; `uint64` indices
  become `Nat` (the code never does arithmetic on them, only comparison and
  assignment, so no wrap-around can occur).
- Network calls become explicit inputs: a query result is
  `Option (List Alloc × Nat)` (`none` is an errored `allocs.List` call,
  `some (resp, lastIndex)` a successful one carrying `qm.LastIndex`);
  `statusClient.Set` calls become an emitted list of `MetricSample`s.
- `log.Fatalln` / `log.Fatalf` exit the process with status 1; we model
  command handlers as returning the side effects performed so far together
  with the process exit code.
- The float64 conversion at the `Set` call sites is dropped: samples carry
  the `Int` counter value (the conversion is exact for every count a Go
  slice can have in practice and the claims compare integer counters).
-/

namespace SchedBench

/-- `structs.AllocClientStatusPending` from the nomad structs package. -/
def AllocClientStatusPending : String := "pending"

/-- `structs.AllocClientStatusRunning` from the nomad structs package. -/
def AllocClientStatusRunning : String := "running"

/-- The part of an `api.Allocation` the watch loop reads: its client status. -/
structure Alloc where
  ClientStatus : String
deriving Repr, DecidableEq

/-- The `api.QueryOptions` fields set by `handleStatus`. -/
structure QueryOptions where
  AllowStale : Bool
  WaitIndex : Nat
deriving Repr, DecidableEq

/-- One `statusClient.Set(name, value, ts)` call. -/
structure MetricSample where
  name : String
  value : Int
  ts : Nat
deriving Repr, DecidableEq

/-- The mutable state of the `handleStatus` wait loop: the three
last-emitted counters and the wait index (cursor). -/
structure StatusState where
  lastPending : Int
  lastRunning : Int
  lastTotal : Int
  index : Nat
deriving Repr, DecidableEq

/-- `var lastPending, lastRunning, lastTotal int64` (zero values) and
`var index uint64 = 1` at the top of `handleStatus`. -/
def initStatusState : StatusState :=
  { lastPending := 0, lastRunning := 0, lastTotal := 0, index := 1 }

/-- The `api.QueryOptions` built at the top of each loop iteration. -/
def queryOptions (st : StatusState) : QueryOptions :=
  { AllowStale := true, WaitIndex := st.index }

/-- The body of the `switch alloc.ClientStatus` statement: bump the pending
or running counter, leave other statuses untallied. -/
def tallyStep (acc : Int × Int) (alloc : Alloc) : Int × Int :=
  if alloc.ClientStatus = AllocClientStatusPending then (acc.1 + 1, acc.2)
  else if alloc.ClientStatus = AllocClientStatusRunning then (acc.1, acc.2 + 1)
  else acc

/-- The `for _, alloc := range resp` tally loop: returns
`(allocsPending, allocsRunning)`. -/
def tallyAllocs (resp : List Alloc) : Int × Int :=
  resp.foldl tallyStep (0, 0)

/-- One iteration of the `handleStatus` wait loop, given the outcome of the
`allocs.List` query (`none` = error) and the observation timestamp.
Returns the state for the next iteration and the samples written. -/
def stepStatus (st : StatusState) (q : Option (List Alloc × Nat)) (ts : Nat) :
    StatusState × List MetricSample :=
  match q with
  | none => (st, [])
  | some (resp, lastIndex) =>
    if lastIndex = st.index then
      (st, [])
    else
      let allocsTotal : Int := (resp.length : Int)
      let allocsPending : Int := (tallyAllocs resp).1
      let allocsRunning : Int := (tallyAllocs resp).2
      let placedOut : List MetricSample :=
        if allocsTotal ≠ st.lastTotal then [⟨"placed", allocsTotal, ts⟩] else []
      let lastTotal : Int :=
        if allocsTotal ≠ st.lastTotal then allocsTotal else st.lastTotal
      let bootingOut : List MetricSample :=
        if allocsPending ≠ st.lastPending then [⟨"booting", allocsPending, ts⟩] else []
      let lastPending : Int :=
        if allocsPending ≠ st.lastPending then allocsPending else st.lastPending
      let runningOut : List MetricSample :=
        if allocsRunning ≠ st.lastRunning then [⟨"running", allocsRunning, ts⟩] else []
      let lastRunning : Int :=
        if allocsRunning ≠ st.lastRunning then allocsRunning else st.lastRunning
      ({ lastPending := lastPending, lastRunning := lastRunning,
         lastTotal := lastTotal, index := lastIndex },
       placedOut ++ bootingOut ++ runningOut)

/-- Running the wait loop over a finite prefix of query outcomes
(each paired with its observation timestamp), collecting all samples. -/
def runStatus (st : StatusState) :
    List (Option (List Alloc × Nat) × Nat) → StatusState × List MetricSample
  | [] => (st, [])
  | (q, ts) :: rest =>
    ((runStatus (stepStatus st q ts).1 rest).1,
     (stepStatus st q ts).2 ++ (runStatus (stepStatus st q ts).1 rest).2)

/-- `convertStructJob`: gob-encode the source job, gob-decode into the API
job type; on either failure return a nil job with the error. The gob
encoder/decoder (with its registered dynamic types) is abstracted as a
pair of fallible functions. -/
def convertStructJob {Job Bytes ApiJob Err : Type}
    (encode : Job → Except Err Bytes) (decode : Bytes → Except Err ApiJob)
    (j : Job) : Option ApiJob × Option Err :=
  match encode j with
  | Except.error e => (none, some e)
  | Except.ok buf =>
    match decode buf with
    | Except.error e => (none, some e)
    | Except.ok apiJob => (some apiJob, none)

/-- The `for _, job := range jobs` deregistration loop of `handleTeardown`:
returns the `Deregister` calls issued, in order, and whether all succeeded
(a failure is `log.Fatalf`, aborting the rest). -/
def deregisterAll (deregOk : String → Bool) : List String → List String × Bool
  | [] => ([], true)
  | id :: rest =>
    if deregOk id then
      (id :: (deregisterAll deregOk rest).1, (deregisterAll deregOk rest).2)
    else ([id], false)

/-- `handleTeardown` after client creation: list jobs (`none` = listing
error, fatal), deregister each fail-fast, then `os.RemoveAll` the dir.
Returns (deregistration calls issued, whether removal was attempted,
process exit code). -/
def handleTeardownModel (listRes : Option (List String))
    (deregOk : String → Bool) (removeOk : Bool) : List String × Bool × Nat :=
  match listRes with
  | none => ([], false, 1)
  | some jobs =>
    if (deregisterAll deregOk jobs).2 then
      ((deregisterAll deregOk jobs).1, true, if removeOk then 0 else 1)
    else ((deregisterAll deregOk jobs).1, false, 1)

/-- `fmt.Sprintf("job-%d", i)`: the job identifier assigned before the
i-th registration. -/
def jobId (i : Nat) : String := "job-" ++ toString i

/-- The `for i := 0; i < numJobs; i++` registration loop of `handleRun`,
started at counter value `i` with `n` iterations left. Returns the job IDs
passed to `jobs.Register`, in order, and whether the loop completed
(a registration failure is `log.Fatalf`, aborting the rest). `regOk i`
tells whether the registration of the i-th job succeeds. -/
def registerFrom (regOk : Nat → Bool) (i : Nat) : Nat → List String × Bool
  | 0 => ([], true)
  | n + 1 =>
    if regOk i then
      ((jobId i) :: (registerFrom regOk (i + 1) n).1,
       (registerFrom regOk (i + 1) n).2)
    else ([jobId i], false)

/-- `strconv.Atoi`: optional sign, then one or more decimal digits,
range-checked against int64; `none` models a non-nil error (as for the
empty string `os.Getenv` yields when the variable is missing). -/
def atoi (s : String) : Option Int :=
  let signed : Bool × List Char :=
    match s.data with
    | '+' :: rest => (false, rest)
    | '-' :: rest => (true, rest)
    | cs => (false, cs)
  match signed.2 with
  | [] => none
  | ds =>
    match ds.foldl
        (fun acc c =>
          match acc with
          | none => none
          | some n => if c.isDigit then some (n * 10 + (c.toNat - 48)) else none)
        (some 0) with
    | none => none
    | some n =>
      let v : Int := if signed.1 then -(n : Int) else (n : Int)
      if v < -(2 ^ 63) ∨ 2 ^ 63 - 1 < v then none else some v

/-- `handleRun` for a given `NOMAD_NUM_JOBS` value: parse the count
(non-numeric is `log.Fatalln`, exit 1, before any registration), then run
the registration loop. Job-file parsing, transcoding and client creation
sit between the two in the source; their failures are separate fatal
exits and they perform no registrations, so they are abstracted as
succeeding here. Returns the registration calls made and the exit code. -/
def handleRunModel (env : String) (regOk : Nat → Bool) : List String × Nat :=
  match atoi env with
  | none => ([], 1)
  | some numJobs =>
    if (registerFrom regOk 0 numJobs.toNat).2 then
      ((registerFrom regOk 0 numJobs.toNat).1, 0)
    else ((registerFrom regOk 0 numJobs.toNat).1, 1)

/-- Allocations of the response whose client status is `pending`. -/
def countPending (resp : List Alloc) : Int :=
  ((resp.filter fun a => a.ClientStatus = AllocClientStatusPending).length : Int)

/-- Allocations of the response whose client status is `running`. -/
def countRunning (resp : List Alloc) : Int :=
  ((resp.filter fun a => a.ClientStatus = AllocClientStatusRunning).length : Int)

/-- Allocations of the response with any other (terminal or unrecognized)
client status: they hit the switch's implicit default and are counted only
in `allocsTotal`. -/
def countOther (resp : List Alloc) : Int :=
  ((resp.filter fun a =>
      a.ClientStatus ≠ AllocClientStatusPending ∧
      a.ClientStatus ≠ AllocClientStatusRunning).length : Int)

/-- Bool-valued trace predicate: every successful query in the trace
reports a `LastIndex` at least the cursor held when it was issued. -/
def cursorSafeB (st : StatusState) :
    List (Option (List Alloc × Nat) × Nat) → Bool
  | [] => true
  | (q, ts) :: rest =>
    (match q with
     | some (_, li) => decide (st.index ≤ li)
     | none => true) &&
    cursorSafeB (stepStatus st q ts).1 rest

end SchedBench

namespace SchedBench

/-- Pointwise form of one tally step. -/
theorem tallyStep_apply (p r : Int) (a : Alloc) :
    tallyStep (p, r) a =
      if a.ClientStatus = AllocClientStatusPending then (p + 1, r)
      else if a.ClientStatus = AllocClientStatusRunning then (p, r + 1)
      else (p, r) := rfl

/-- The tally fold with an arbitrary accumulator splits off the
accumulator. -/
theorem foldl_tallyStep (resp : List Alloc) (p r : Int) :
    resp.foldl tallyStep (p, r) =
      (p + (tallyAllocs resp).1, r + (tallyAllocs resp).2) := by
  induction resp generalizing p r with
  | nil => simp [tallyAllocs]
  | cons a tl ih =>
    rw [List.foldl_cons,
      show tallyAllocs (a :: tl) = tl.foldl tallyStep (tallyStep (0, 0) a) from rfl,
      tallyStep_apply, tallyStep_apply]
    split_ifs with hp hr
    · rw [ih, ih]
      simp [Prod.ext_iff]
      omega
    · rw [ih, ih]
      simp [Prod.ext_iff]
      omega
    · rw [ih, ih]
      simp [Prod.ext_iff]

/-- Unfolding `tallyAllocs` over the head of the response. -/
theorem tallyAllocs_cons (a : Alloc) (tl : List Alloc) :
    tallyAllocs (a :: tl) =
      (if a.ClientStatus = AllocClientStatusPending then
        ((tallyAllocs tl).1 + 1, (tallyAllocs tl).2)
       else if a.ClientStatus = AllocClientStatusRunning then
        ((tallyAllocs tl).1, (tallyAllocs tl).2 + 1)
       else tallyAllocs tl) := by
  rw [show tallyAllocs (a :: tl) = tl.foldl tallyStep (tallyStep (0, 0) a) from rfl,
    tallyStep_apply]
  split_ifs with hp hr
  · rw [foldl_tallyStep]
    simp [Prod.ext_iff]
    omega
  · rw [foldl_tallyStep]
    simp [Prod.ext_iff]
    omega
  · rfl

/-- C8: for any single query response, the tallied pending and running
counts agree with the per-status classification of every allocation, and
`allocsTotal = pending + running + other`: allocations with unrecognized
or terminal statuses count toward the total but toward neither tallied
aggregate. -/
theorem aggregate_partition (resp : List Alloc) :
    (tallyAllocs resp).1 = countPending resp ∧
    (tallyAllocs resp).2 = countRunning resp ∧
    (resp.length : Int) =
      (tallyAllocs resp).1 + (tallyAllocs resp).2 + countOther resp := by
  induction resp with
  | nil => simp [tallyAllocs, countPending, countRunning, countOther]
  | cons a tl ih =>
    obtain ⟨ih1, ih2, ih3⟩ := ih
    by_cases hp : a.ClientStatus = AllocClientStatusPending
    · simp only [tallyAllocs_cons, if_pos hp, countPending, countRunning,
        countOther, List.filter_cons, hp, List.length_cons] at *
      simp only [AllocClientStatusPending, AllocClientStatusRunning] at *
      simp at *
      omega
    · by_cases hr : a.ClientStatus = AllocClientStatusRunning
      · simp only [tallyAllocs_cons, if_neg hp, if_pos hr, countPending,
          countRunning, countOther, List.filter_cons, hr, List.length_cons] at *
        simp [hp, hr] at *
        omega
      · simp only [tallyAllocs_cons, if_neg hp, if_neg hr, countPending,
          countRunning, countOther, List.filter_cons, List.length_cons] at *
        simp [hp, hr] at *
        omega

/-- C3: a successful query whose `LastIndex` equals the held cursor is a
no-op: no sample is emitted and the loop state (cursor and caches) is
unchanged, so the next iteration retries with the same cursor. -/
theorem stepStatus_equal_index_noop (st : StatusState) (resp : List Alloc)
    (ts : Nat) : stepStatus st (some (resp, st.index)) ts = (st, []) := by
  simp [stepStatus]

/-- C4: an errored query is logged and skipped: no sample is emitted, the
state is unchanged, and the query options sent on the next iteration equal
those sent on the failed one. -/
theorem stepStatus_error_noop (st : StatusState) (ts : Nat) :
    stepStatus st none ts = (st, []) ∧
    queryOptions (stepStatus st none ts).1 = queryOptions st := by
  exact ⟨rfl, rfl⟩

/-- C7: `convertStructJob` either returns a fully decoded job and no error,
or a nil job together with an error — never a partially populated object
alongside an error. -/
theorem convertStructJob_total {Job Bytes ApiJob Err : Type}
    (encode : Job → Except Err Bytes) (decode : Bytes → Except Err ApiJob)
    (j : Job) :
    (∃ a, convertStructJob encode decode j = (some a, none)) ∨
    (∃ e, convertStructJob encode decode j = (none, some e)) := by
  unfold convertStructJob
  cases henc : encode j with
  | error e => exact Or.inr ⟨e, rfl⟩
  | ok buf =>
    cases hdec : decode buf with
    | error e =>
      refine Or.inr ⟨e, ?_⟩
      simp [hdec]
    | ok apiJob =>
      refine Or.inl ⟨apiJob, ?_⟩
      simp [hdec]

/-- C9: teardown with a successful listing of zero jobs issues no
deregistration call, still attempts removal of the working directory, and
exits 0 when removal succeeds. -/
theorem handleTeardown_zero_jobs (deregOk : String → Bool) :
    handleTeardownModel (some []) deregOk true = ([], true, 0) := by
  rfl

/-- When every remaining registration succeeds, the loop registers the
consecutive job IDs and completes. -/
theorem registerFrom_all_ok (regOk : Nat → Bool) (i n : Nat)
    (h : ∀ j, j < n → regOk (i + j) = true) :
    registerFrom regOk i n = ((List.range n).map (fun j => jobId (i + j)), true) := by
  induction n generalizing i with
  | zero => simp [registerFrom]
  | succ n ih =>
    have h0 : regOk i = true := by simpa using h 0 (Nat.succ_pos n)
    have htl : registerFrom regOk (i + 1) n =
        ((List.range n).map (fun j => jobId (i + 1 + j)), true) := by
      refine ih (i + 1) (fun j hj => ?_)
      have := h (j + 1) (Nat.succ_lt_succ hj)
      simpa [Nat.add_assoc, Nat.add_comm 1 j] using this
    simp only [registerFrom, h0, if_pos]
    rw [htl]
    simp [List.range_succ_eq_map, List.map_map, Function.comp_def,
      Nat.add_assoc, Nat.add_comm 1]

/-- When the registration at counter `i + m` fails after `m` successes, the
loop registers exactly `m + 1` job IDs (the last attempt failing) and
aborts. -/
theorem registerFrom_fail (regOk : Nat → Bool) (i m n : Nat) (hm : m < n)
    (hok : ∀ j, j < m → regOk (i + j) = true) (hfail : regOk (i + m) = false) :
    registerFrom regOk i n =
      ((List.range (m + 1)).map (fun j => jobId (i + j)), false) := by
  induction m generalizing i n with
  | zero =>
    obtain ⟨n, rfl⟩ := Nat.exists_eq_succ_of_ne_zero (Nat.pos_iff_ne_zero.mp hm)
    have h0 : regOk i = false := by simpa using hfail
    simp [registerFrom, h0, List.range_succ]
  | succ m ih =>
    obtain ⟨n, rfl⟩ := Nat.exists_eq_succ_of_ne_zero
      (Nat.pos_iff_ne_zero.mp (Nat.lt_of_le_of_lt (Nat.zero_le _) hm))
    have h0 : regOk i = true := by simpa using hok 0 (Nat.succ_pos m)
    have htl : registerFrom regOk (i + 1) n =
        ((List.range (m + 1)).map (fun j => jobId (i + 1 + j)), false) := by
      refine ih (i + 1) n (Nat.lt_of_succ_lt_succ hm) (fun j hj => ?_) ?_
      · have := hok (j + 1) (Nat.succ_lt_succ hj)
        simpa [Nat.add_assoc, Nat.add_comm 1 j] using this
      · have := hfail
        simpa [Nat.add_assoc, Nat.add_comm 1 m] using this
    simp only [registerFrom, h0, if_pos]
    rw [htl]
    simp [List.range_succ_eq_map, List.map_map, Function.comp_def,
      Nat.add_assoc, Nat.add_comm 1]

/-- C5: with a numeric job count `k > 0`, when every registration succeeds
the run command performs exactly `k` registrations, with IDs
`job-0 .. job-(k-1)` submitted in that order, and exits 0; and when the
i-th registration fails (the first `i` succeeding), it attempts exactly
`i + 1` registrations — IDs `job-0 .. job-i`, the last one failing — and
terminates fatally with no further registrations. -/
theorem handleRun_fanout :
    (∀ env regOk (k : Int), atoi env = some k → 0 < k →
       (∀ i, i < k.toNat → regOk i = true) →
       handleRunModel env regOk = ((List.range k.toNat).map jobId, 0)) ∧
    (∀ env regOk (k : Int) (i : Nat), atoi env = some k → i < k.toNat →
       (∀ j, j < i → regOk j = true) → regOk i = false →
       handleRunModel env regOk = ((List.range (i + 1)).map jobId, 1)) := by
  constructor
  · intro env regOk k henv _ hok
    have hreg : registerFrom regOk 0 k.toNat =
        ((List.range k.toNat).map (fun j => jobId (0 + j)), true) :=
      registerFrom_all_ok regOk 0 k.toNat (fun j hj => by simpa using hok j hj)
    simp only [Nat.zero_add] at hreg
    simp [handleRunModel, henv, hreg]
  · intro env regOk k i henv hi hok hfail
    have hreg : registerFrom regOk 0 k.toNat =
        ((List.range (i + 1)).map (fun j => jobId (0 + j)), false) :=
      registerFrom_fail regOk 0 i k.toNat hi (fun j hj => by simpa using hok j hj)
        (by simpa using hfail)
    simp only [Nat.zero_add] at hreg
    simp [handleRunModel, henv, hreg]

/-- Witness for C5: with `NOMAD_NUM_JOBS=3` and all registrations
succeeding, the run registers job-0, job-1, job-2 and exits 0; with the
registration of job-1 failing, it attempts job-0 and job-1 only and exits
fatally. -/
theorem handleRun_fanout_witness :
    atoi "3" = some 3 ∧ (0 : Int) < 3 ∧
    handleRunModel "3" (fun _ => true) = ((List.range 3).map jobId, 0) ∧
    handleRunModel "3" (fun i => decide (i < 1)) = ((List.range 2).map jobId, 1) :=
  ⟨rfl, by decide,
   handleRun_fanout.1 "3" (fun _ => true) 3 rfl (by decide) (fun i _ => rfl),
   handleRun_fanout.2 "3" (fun i => decide (i < 1)) 3 1 rfl (by decide)
     (fun j hj => by simp [Nat.lt_one_iff.mp hj]) (by decide)⟩

/-- C6 counterexample: the input `"0"` is numeric but not a positive
integer, yet the run command does not treat it as a fatal configuration
error: it parses successfully, performs zero registrations and exits 0. -/
theorem handleRun_nonpositive_cex :
    atoi "0" = some 0 ∧ handleRunModel "0" (fun _ => true) = ([], 0) :=
  ⟨rfl, rfl⟩

/-- C6 amended: the run command validates `NOMAD_NUM_JOBS` as numeric
only: a non-numeric or missing (empty) input is a fatal error with no
registrations performed; a numeric but non-positive input is accepted,
performs zero registrations, and exits successfully. -/
theorem handleRun_validation :
    (∀ env regOk, atoi env = none → handleRunModel env regOk = ([], 1)) ∧
    (∀ env regOk (k : Int), atoi env = some k → k ≤ 0 →
       handleRunModel env regOk = ([], 0)) ∧
    atoi "" = none := by
  refine ⟨fun env regOk h => by simp [handleRunModel, h], ?_, rfl⟩
  intro env regOk k henv hk
  have h0 : k.toNat = 0 := Int.toNat_of_nonpos hk
  simp [handleRunModel, henv, h0, registerFrom]

/-- Witness for C6 amended: `"abc"` is fatal with no registrations;
`"-2"` parses, performs zero registrations, and exits 0. -/
theorem handleRun_validation_witness :
    atoi "abc" = none ∧ handleRunModel "abc" (fun _ => true) = ([], 1) ∧
    atoi "-2" = some (-2) ∧ handleRunModel "-2" (fun _ => true) = ([], 0) :=
  ⟨rfl, handleRun_validation.1 "abc" (fun _ => true) rfl, rfl,
   handleRun_validation.2.1 "-2" (fun _ => true) (-2) rfl (by decide)⟩

/-- The cursor after one iteration is either unchanged or equal to the
`LastIndex` of a successful response. -/
theorem stepStatus_index (st : StatusState) (q : Option (List Alloc × Nat))
    (ts : Nat) :
    (stepStatus st q ts).1.index = st.index ∨
    (∃ resp li, q = some (resp, li) ∧ (stepStatus st q ts).1.index = li) := by
  match q with
  | none => exact Or.inl rfl
  | some (resp, li) =>
    by_cases he : li = st.index
    · left
      simp [stepStatus, he]
    · right
      exact ⟨resp, li, rfl, by simp [stepStatus, he]⟩

/-- C1 counterexample: a successful response carrying a `LastIndex`
smaller than the held cursor (possible under stale reads) rolls the cursor
back: from cursor 5, a response with index 3 makes the cursor 3 < 5. -/
theorem watchCursor_rollback_cex :
    (stepStatus initStatusState (some ([], 5)) 0).1.index = 5 ∧
    (stepStatus (stepStatus initStatusState (some ([], 5)) 0).1
        (some ([], 3)) 1).1.index <
      (stepStatus initStatusState (some ([], 5)) 0).1.index := by
  decide

/-- C1 amended: provided every successful query response reports a
`LastIndex` at least the cursor held when the query was issued (as the
orchestrator's monotone index contract yields), the cursor is
non-decreasing across any sequence of iterations; and within one
iteration on a successful response with index at least the cursor, the
cursor changes exactly when the reported index is strictly greater. -/
theorem watchCursor_monotone :
    (∀ st qs, cursorSafeB st qs = true →
       st.index ≤ (runStatus st qs).1.index) ∧
    (∀ st resp li ts, st.index ≤ li →
       ((stepStatus st (some (resp, li)) ts).1.index ≠ st.index ↔
        st.index < li)) := by
  constructor
  · intro st qs
    induction qs generalizing st with
    | nil =>
      intro _
      simp [runStatus]
    | cons hd tl ih =>
      obtain ⟨q, ts⟩ := hd
      intro h
      simp only [cursorSafeB, Bool.and_eq_true] at h
      obtain ⟨h1, h2⟩ := h
      have step_le : st.index ≤ (stepStatus st q ts).1.index := by
        match q with
        | none => exact Nat.le_of_eq rfl
        | some (resp, li) =>
          have hle : st.index ≤ li := by simpa using h1
          by_cases he : li = st.index
          · simp [stepStatus, he]
          · have hidx : (stepStatus st (some (resp, li)) ts).1.index = li := by
              simp [stepStatus, he]
            rw [hidx]
            exact hle
      calc st.index ≤ (stepStatus st q ts).1.index := step_le
        _ ≤ (runStatus (stepStatus st q ts).1 tl).1.index := ih _ h2
        _ = (runStatus st ((q, ts) :: tl)).1.index := rfl
  · intro st resp li ts hle
    by_cases he : li = st.index
    · simp [stepStatus, he]
    · have hidx : (stepStatus st (some (resp, li)) ts).1.index = li := by
        simp [stepStatus, he]
      rw [hidx]
      constructor
      · intro _
        exact Nat.lt_of_le_of_ne hle (fun h => he h.symm)
      · intro _
        exact he

/-- Witness for C1 amended: a safe two-query trace from the initial state
keeps the cursor at least 1, and a step from cursor 1 to index 5 advances
exactly because 1 < 5. -/
theorem watchCursor_monotone_witness :
    cursorSafeB initStatusState [(some ([], 5), 0), (some ([], 7), 1)] = true ∧
    initStatusState.index ≤
      (runStatus initStatusState [(some ([], 5), 0), (some ([], 7), 1)]).1.index ∧
    initStatusState.index ≤ 5 ∧
    ((stepStatus initStatusState (some ([], 5)) 0).1.index ≠
        initStatusState.index ↔ initStatusState.index < 5) :=
  ⟨by decide,
   watchCursor_monotone.1 initStatusState
     [(some ([], 5), 0), (some ([], 7), 1)] (by decide),
   by decide,
   watchCursor_monotone.2 initStatusState [] 5 0 (by decide)⟩

/-- C2 counterexample: the very first successful observation (the cursor
advances from its initial value 1 to index 2, so a fresh snapshot was
observed) with all three aggregates equal to 0 emits no sample at all,
because the last-emitted caches start at 0 — emission does not occur on
every first observed value. -/
theorem metricEmission_first_zero_cex :
    (stepStatus initStatusState (some ([], 2)) 0).1.index = 2 ∧
    (stepStatus initStatusState (some ([], 2)) 0).2 = [] := by
  decide

/-- C2 amended: in an iteration that processes a fresh snapshot (reported
index differs from the cursor), for each metric name the sample with the
newly computed value is emitted exactly when that value differs from the
last cached value for the name, where the caches start at 0 — so the
first observation emits exactly when its value is nonzero, every
subsequent change emits, and a repeat of the cached value never emits —
at most one sample per name, and the cache ends up holding the newly
computed value. -/
theorem stepStatus_emits_iff (st : StatusState) (resp : List Alloc)
    (li ts : Nat) (h : li ≠ st.index) :
    ((stepStatus st (some (resp, li)) ts).2.filter
        (fun s => s.name = "placed") =
      if (resp.length : Int) ≠ st.lastTotal then
        [⟨"placed", (resp.length : Int), ts⟩] else []) ∧
    ((stepStatus st (some (resp, li)) ts).2.filter
        (fun s => s.name = "booting") =
      if (tallyAllocs resp).1 ≠ st.lastPending then
        [⟨"booting", (tallyAllocs resp).1, ts⟩] else []) ∧
    ((stepStatus st (some (resp, li)) ts).2.filter
        (fun s => s.name = "running") =
      if (tallyAllocs resp).2 ≠ st.lastRunning then
        [⟨"running", (tallyAllocs resp).2, ts⟩] else []) ∧
    (stepStatus st (some (resp, li)) ts).1.lastTotal = (resp.length : Int) ∧
    (stepStatus st (some (resp, li)) ts).1.lastPending = (tallyAllocs resp).1 ∧
    (stepStatus st (some (resp, li)) ts).1.lastRunning = (tallyAllocs resp).2 := by
  by_cases h1 : (resp.length : Int) = st.lastTotal <;>
  by_cases h2 : (tallyAllocs resp).1 = st.lastPending <;>
  by_cases h3 : (tallyAllocs resp).2 = st.lastRunning <;>
  simp [stepStatus, h, h1, h2, h3, List.filter_append]

/-- Witness for C2 amended: from the initial state, a response of one
running allocation at index 5 emits placed=1 and running=1 (both differ
from the cached 0) and no booting sample (pending stays 0), leaving the
caches at the computed values. -/
theorem stepStatus_emits_iff_witness :
    (5 : Nat) ≠ initStatusState.index ∧
    ((stepStatus initStatusState
        (some ([Alloc.mk AllocClientStatusRunning], 5)) 0).2.filter
        (fun s => s.name = "placed") =
      if (([Alloc.mk AllocClientStatusRunning].length : Int)) ≠
          initStatusState.lastTotal then
        [⟨"placed", (([Alloc.mk AllocClientStatusRunning].length : Int)), 0⟩]
      else []) ∧
    ((stepStatus initStatusState
        (some ([Alloc.mk AllocClientStatusRunning], 5)) 0).2.filter
        (fun s => s.name = "booting") =
      if (tallyAllocs [Alloc.mk AllocClientStatusRunning]).1 ≠
          initStatusState.lastPending then
        [⟨"booting", (tallyAllocs [Alloc.mk AllocClientStatusRunning]).1, 0⟩]
      else []) :=
  ⟨by decide,
   (stepStatus_emits_iff initStatusState [Alloc.mk AllocClientStatusRunning]
     5 0 (by decide)).1,
   (stepStatus_emits_iff initStatusState [Alloc.mk AllocClientStatusRunning]
     5 0 (by decide)).2.1⟩

/-- C10: at the start of `handleStatus` the cursor is 1, the three
last-emitted caches are 0, and the first query is issued with
`WaitIndex = 1` and `AllowStale = true`. -/
theorem initStatusState_spec :
    initStatusState.index = 1 ∧ initStatusState.lastTotal = 0 ∧
    initStatusState.lastPending = 0 ∧ initStatusState.lastRunning = 0 ∧
    queryOptions initStatusState = { AllowStale := true, WaitIndex := 1 } := by
  exact ⟨rfl, rfl, rfl, rfl, rfl⟩

end SchedBench
